import Mathlib

/-
Verification development for the chat transport component in
src/src/ChatUi.tsx.  JavaScript strings are modelled as lists of UTF-16
code units (List Nat).  The browser builtins btoa and atob are modelled
as executable base64 over Latin-1 bytes: btoa throws on a code unit of
256 or more, which the model renders as Option.none.
-/

namespace ChatUi

/-- Standard base64 alphabet: sextet value to ASCII code. -/
def sextetToChar (n : Nat) : Nat :=
  if n < 26 then 65 + n
  else if n < 52 then 97 + (n - 26)
  else if n < 62 then 48 + (n - 52)
  else if n = 62 then 43
  else 47

/-- Inverse of the base64 alphabet; none on a character outside it. -/
def charToSextet (c : Nat) : Option Nat :=
  if 65 ≤ c ∧ c ≤ 90 then some (c - 65)
  else if 97 ≤ c ∧ c ≤ 122 then some (c - 97 + 26)
  else if 48 ≤ c ∧ c ≤ 57 then some (c - 48 + 52)
  else if c = 43 then some 62
  else if c = 47 then some 63
  else none

/-- Model of the browser builtin btoa restricted to byte sequences:
base64-encodes groups of three bytes into four alphabet characters,
padding the final group with the character 61 (ASCII =). -/
def btoaBytes : List Nat → List Nat
  | [] => []
  | [b1] =>
      [sextetToChar (b1 / 4), sextetToChar (b1 % 4 * 16), 61, 61]
  | [b1, b2] =>
      [sextetToChar (b1 / 4), sextetToChar (b1 % 4 * 16 + b2 / 16),
       sextetToChar (b2 % 16 * 4), 61]
  | b1 :: b2 :: b3 :: rest =>
      sextetToChar (b1 / 4) :: sextetToChar (b1 % 4 * 16 + b2 / 16) ::
      sextetToChar (b2 % 16 * 4 + b3 / 64) :: sextetToChar (b3 % 64) ::
      btoaBytes rest

/-- Model of the browser builtin atob on base64 text: decodes four
characters at a time, handling the two padded final-group shapes; none
on input that is not valid base64 of this shape. -/
def atobBytes : List Nat → Option (List Nat)
  | [] => some []
  | c1 :: c2 :: c3 :: c4 :: rest =>
      if c3 = 61 ∧ c4 = 61 ∧ rest = [] then do
        let s1 ← charToSextet c1
        let s2 ← charToSextet c2
        some [s1 * 4 + s2 / 16]
      else if c4 = 61 ∧ rest = [] then do
        let s1 ← charToSextet c1
        let s2 ← charToSextet c2
        let s3 ← charToSextet c3
        some [s1 * 4 + s2 / 16, s2 % 16 * 16 + s3 / 4]
      else do
        let s1 ← charToSextet c1
        let s2 ← charToSextet c2
        let s3 ← charToSextet c3
        let s4 ← charToSextet c4
        let tl ← atobBytes rest
        some ((s1 * 4 + s2 / 16) :: (s2 % 16 * 16 + s3 / 4) ::
              (s3 % 4 * 64 + s4) :: tl)
  | _ => none

/-- Lower-case hexadecimal digit character for a value below 16, as
produced by the JSON serializer for control-character escapes. -/
def hexDigit (d : Nat) : Nat :=
  if d < 10 then 48 + d else 87 + d

/-- Inverse of a hexadecimal digit character; none on a non-digit. -/
def hexVal (c : Nat) : Option Nat :=
  if 48 ≤ c ∧ c ≤ 57 then some (c - 48)
  else if 97 ≤ c ∧ c ≤ 102 then some (c - 87)
  else if 65 ≤ c ∧ c ≤ 70 then some (c - 55)
  else none

/-- Model of the string escaping performed by the JSON serializer on a
single code unit: quote and backslash get two-character escapes, the
named control characters get their short escapes, the remaining control
characters below 32 get a four-digit unicode escape, and everything
else passes through literally. -/
def escChar (c : Nat) : List Nat :=
  if c = 34 then [92, 34]
  else if c = 92 then [92, 92]
  else if c = 8 then [92, 98]
  else if c = 9 then [92, 116]
  else if c = 10 then [92, 110]
  else if c = 12 then [92, 102]
  else if c = 13 then [92, 114]
  else if c < 32 then [92, 117, 48, 48, hexDigit (c / 16), hexDigit (c % 16)]
  else [c]

/-- Escape every code unit of a string. -/
def escAll : List Nat → List Nat
  | [] => []
  | c :: rest => escChar c ++ escAll rest

/-- A JSON string literal: opening quote, escaped body, closing quote. -/
def jsonQuote (s : List Nat) : List Nat :=
  34 :: escAll s ++ [34]

/-- Unescape a single two-character escape sequence. -/
def unescSimple (e : Nat) : Option Nat :=
  if e = 34 then some 34
  else if e = 92 then some 92
  else if e = 47 then some 47
  else if e = 98 then some 8
  else if e = 102 then some 12
  else if e = 110 then some 10
  else if e = 114 then some 13
  else if e = 116 then some 9
  else none

/-- Model of JSON string-literal parsing after the opening quote has
been consumed: scans to the closing quote, undoing escapes, and returns
the decoded body together with the unconsumed remainder. -/
def parseStrBody : List Nat → Option (List Nat × List Nat)
  | [] => none
  | c :: rest =>
    if c = 34 then some ([], rest)
    else if c = 92 then
      match rest with
      | [] => none
      | e :: rest2 =>
        if e = 117 then
          match rest2 with
          | h1 :: h2 :: h3 :: h4 :: rest3 => do
              let d1 ← hexVal h1
              let d2 ← hexVal h2
              let d3 ← hexVal h3
              let d4 ← hexVal h4
              let (sres, r) ← parseStrBody rest3
              some ((d1 * 4096 + d2 * 256 + d3 * 16 + d4) :: sres, r)
          | _ => none
        else do
          let ec ← unescSimple e
          let (sres, r) ← parseStrBody rest2
          some (ec :: sres, r)
    else do
      let (sres, r) ← parseStrBody rest
      some (c :: sres, r)

/-- Consume an expected literal from the front of the input. -/
def dropLit : List Nat → List Nat → Option (List Nat)
  | [], s => some s
  | l :: ls, c :: cs => if c = l then dropLit ls cs else none
  | _ :: _, [] => none

/-- The wire envelope built in sendMessage and retryFailedMessage: the
id, content and ISO timestamp of a message, each a string of code
units. -/
structure Envelope where
  id : List Nat
  content : List Nat
  timestamp : List Nat
deriving DecidableEq, Repr

/-- Model of the serialization step in sendMessage and
retryFailedMessage: the JSON text produced for an object with fields
id, content and timestamp in that order, with no added whitespace. -/
def serializeEnvelope (e : Envelope) : List Nat :=
  [123, 34, 105, 100, 34, 58] ++ jsonQuote e.id ++
  [44, 34, 99, 111, 110, 116, 101, 110, 116, 34, 58] ++ jsonQuote e.content ++
  [44, 34, 116, 105, 109, 101, 115, 116, 97, 109, 112, 34, 58] ++
  jsonQuote e.timestamp ++ [125]

/-- Model of the JSON parsing step in the message handler, restricted
to texts of the exact shape serializeEnvelope produces; any other text
maps to none, which the handler code reaches as the catch branch (its
state is then unchanged). -/
def parseEnvelope (s : List Nat) : Option Envelope := do
  let s1 ← dropLit [123, 34, 105, 100, 34, 58, 34] s
  let p1 ← parseStrBody s1
  let s3 ← dropLit [44, 34, 99, 111, 110, 116, 101, 110, 116, 34, 58, 34] p1.2
  let p2 ← parseStrBody s3
  let s5 ← dropLit [44, 34, 116, 105, 109, 101, 115, 116, 97, 109, 112, 34, 58, 34] p2.2
  let p3 ← parseStrBody s5
  match p3.2 with
  | [125] => some ⟨p1.1, p2.1, p3.1⟩
  | _ => none

/-- Model of encryptMessage in ChatUi.tsx: with a falsy (empty) key the
message passes through unchanged; otherwise btoa is applied, which
throws (none) when the text has a code unit of 256 or more. -/
def encryptMessage (key : List Nat) (message : List Nat) : Option (List Nat) :=
  if key = [] then some message
  else if message.all (fun c => c < 256) then some (btoaBytes message)
  else none

/-- Model of decryptMessage in ChatUi.tsx: with a falsy key the input
passes through unchanged; otherwise atob is applied (none models an
atob exception).  The HTML-detection branch of the source returns the
decrypted text in both arms, so it does not affect the value. -/
def decryptMessage (key : List Nat) (encrypted : List Nat) : Option (List Nat) :=
  if key = [] then some encrypted
  else atobBytes encrypted

/-- The encode path of the codec as used by sendMessage and
retryFailedMessage: serialize the envelope, then encrypt. -/
def encodeEnvelope (key : List Nat) (e : Envelope) : Option (List Nat) :=
  encryptMessage key (serializeEnvelope e)

/-- The decode path of the codec as used by the message handler:
decrypt, then parse the JSON envelope. -/
def decodeEnvelope (key : List Nat) (w : List Nat) : Option Envelope :=
  (decryptMessage key w).bind parseEnvelope

/-- Message roles in ChatUi.tsx. -/
inductive Role where
  | user
  | ai
deriving DecidableEq, Repr

/-- The status field of a message. -/
inductive MsgStatus where
  | sending
  | sent
  | failed
deriving DecidableEq, Repr

/-- The Message record of ChatUi.tsx.  The id is the uuid string, the
timestamp is the ISO string the Date serializes to, and retryCount is
optional exactly as in the source. -/
structure Msg where
  id : List Nat
  content : List Nat
  role : Role
  timestamp : List Nat
  status : MsgStatus
  retryCount : Option Nat
deriving DecidableEq, Repr

/-- The configuration props of the component that the claims touch. -/
structure Config where
  encryptionKey : List Nat
  maxRetries : Nat
  retryDelay : Nat
  maxRetryDelay : Nat
  enableExponentialBackoff : Bool
deriving DecidableEq, Repr

/-- The mutable component state of ChatUi.tsx that the claims touch:
React state hooks, the message-queue and failed-message refs, and the
pending reconnect timer (pendingRetry holds the scheduled delay).
attemptsStarted counts how many times connectWebSocket passed its
guard and constructed a WebSocket.  State updates are modelled as
taking effect immediately. -/
structure ChatState where
  messages : List Msg
  inputValue : List Nat
  isConnected : Bool
  isConnecting : Bool
  isAutoConnecting : Bool
  connectionRetryCount : Nat
  errorSet : Bool
  showErrorMessage : Bool
  retryMessageId : Option (List Nat)
  messageQueue : List Msg
  failedMessages : List (List Nat × Msg)
  pendingRetry : Option Nat
  attemptsStarted : Nat
deriving DecidableEq, Repr

/-- The envelope sendMessage and retryFailedMessage serialize: id,
content and ISO timestamp of the message. -/
def envelopeOf (m : Msg) : Envelope :=
  ⟨m.id, m.content, m.timestamp⟩

/-- JavaScript whitespace for the purposes of String.prototype.trim:
the WhiteSpace and LineTerminator productions, i.e. tab through
carriage return, space, no-break space, the Ogham space mark, the
en-quad through hair-space range, the line and paragraph separators,
the narrow no-break space, the medium mathematical space, the
ideographic space and the byte-order mark. -/
def isJsWs (c : Nat) : Bool :=
  (9 ≤ c && c ≤ 13) || c = 32 || c = 160 || c = 5760 ||
  (8192 ≤ c && c ≤ 8202) || c = 8232 || c = 8233 || c = 8239 ||
  c = 8287 || c = 12288 || c = 65279

/-- Model of String.prototype.trim: strip leading and trailing
whitespace. -/
def strTrim (s : List Nat) : List Nat :=
  ((s.dropWhile isJsWs).reverse.dropWhile isJsWs).reverse

/-- Lookup in the failed-message registry (a JavaScript object keyed by
message id). -/
def regLookup (reg : List (List Nat × Msg)) (mid : List Nat) : Option Msg :=
  match reg with
  | [] => none
  | (k, v) :: rest => if k = mid then some v else regLookup rest mid

/-- Deletion from the failed-message registry. -/
def regErase (reg : List (List Nat × Msg)) (mid : List Nat) :
    List (List Nat × Msg) :=
  reg.filter (fun p => p.1 ≠ mid)

/-- Model of sendMessage in ChatUi.tsx.  Returns the updated state and
the frames handed to the transport.  When disconnected the message is
pushed onto the queue ref and nothing else happens; when connected the
envelope is encoded and sent and the message status becomes sending,
unless encryptMessage throws, in which case the catch branch marks the
message failed. -/
def sendMessage (cfg : Config) (message : Msg) (s : ChatState) :
    ChatState × List (List Nat) :=
  if s.isConnected = false then
    ({ s with messageQueue := s.messageQueue ++ [message] }, [])
  else
    match encodeEnvelope cfg.encryptionKey (envelopeOf message) with
    | some w =>
        ({ s with messages := s.messages.map (fun msg =>
            if msg.id = message.id then { msg with status := MsgStatus.sending }
            else msg) }, [w])
    | none =>
        ({ s with messages := s.messages.map (fun msg =>
            if msg.id = message.id then { msg with status := MsgStatus.failed }
            else msg) }, [])

/-- The forEach loop inside flushMessageQueue: send each queued message
in order, threading the state and concatenating emitted frames. -/
def sendEach (cfg : Config) : List Msg → ChatState → ChatState × List (List Nat)
  | [], s => (s, [])
  | m :: ms, s =>
      let p1 := sendMessage cfg m s
      let p2 := sendEach cfg ms p1.1
      (p2.1, p1.2 ++ p2.2)

/-- Model of flushMessageQueue in ChatUi.tsx: when the queue is
non-empty and the connection is up, send every queued message in FIFO
order and clear the queue ref. -/
def flushMessageQueue (cfg : Config) (s : ChatState) :
    ChatState × List (List Nat) :=
  if s.messageQueue ≠ [] ∧ s.isConnected = true then
    let p := sendEach cfg s.messageQueue s
    ({ p.1 with messageQueue := [] }, p.2)
  else (s, [])

/-- The delay computed inside handleConnectionRetry for retry number n
(the source computes it for nextRetry, which is the previous count plus
one). -/
def backoffDelay (cfg : Config) (n : Nat) : Nat :=
  if cfg.enableExponentialBackoff then
    min (cfg.retryDelay * 2 ^ n) cfg.maxRetryDelay
  else cfg.retryDelay

/-- Model of handleConnectionRetry in ChatUi.tsx: at or above
maxRetries only an error toast is shown; otherwise the retry count is
incremented and a reconnect timer is scheduled with the backoff
delay. -/
def handleConnectionRetry (cfg : Config) (s : ChatState) : ChatState :=
  if cfg.maxRetries ≤ s.connectionRetryCount then s
  else
    { s with isAutoConnecting := true,
             connectionRetryCount := s.connectionRetryCount + 1,
             pendingRetry := some (backoffDelay cfg (s.connectionRetryCount + 1)) }

/-- Model of connectWebSocket in ChatUi.tsx: a no-op while connecting,
connected or auto-connecting; otherwise clears the error display and
starts a physical connection attempt. -/
def connectWebSocket (s : ChatState) : ChatState :=
  if s.isConnecting || s.isConnected || s.isAutoConnecting then s
  else
    { s with isConnecting := true, errorSet := false,
             showErrorMessage := false,
             attemptsStarted := s.attemptsStarted + 1 }

/-- A pending reconnect timer elapsing: the scheduled callback invokes
connectWebSocket. -/
def timerFire (s : ChatState) : ChatState :=
  match s.pendingRetry with
  | none => s
  | some _ => connectWebSocket { s with pendingRetry := none }

/-- Model of the ws.onerror handler: record the error and enter the
retry path (the close event the browser delivers afterwards is a
separate event). -/
def wsOnError (cfg : Config) (s : ChatState) : ChatState :=
  handleConnectionRetry cfg { s with errorSet := true }

/-- Model of the ws.onclose handler: mark the transport down, then
retry only for an abnormal close code with attempts remaining;
otherwise show the disconnected error. -/
def wsOnClose (cfg : Config) (code : Nat) (s : ChatState) : ChatState :=
  let s1 := { s with isConnected := false, isConnecting := false }
  if code ≠ 1000 ∧ s1.connectionRetryCount < cfg.maxRetries then
    handleConnectionRetry cfg s1
  else
    { s1 with errorSet := true, showErrorMessage := true }

/-- Model of the ws.onmessage handler: decrypt and JSON-parse the
frame; on success overwrite the content of the message with the
matching id and mark it sent; any failure is caught and leaves the
state unchanged. -/
def wsOnMessage (cfg : Config) (wire : List Nat) (s : ChatState) : ChatState :=
  match decodeEnvelope cfg.encryptionKey wire with
  | none => s
  | some env =>
      { s with messages := s.messages.map (fun msg =>
          if msg.id = env.id then
            { msg with content := env.content, status := MsgStatus.sent }
          else msg) }

/-- Model of retryFailedMessage in ChatUi.tsx.  r models the value of
Math.floor(Math.random() * 1000), so the scheduled jitter delay is
r + 500.  The setTimeout continuation is modelled as running to
completion: encode and send, then remove the entry from the registry;
if encoding throws, the catch branch leaves the registry entry in
place.  The third component is the scheduled delay (none when nothing
was scheduled). -/
def retryFailedMessage (cfg : Config) (r : Nat) (messageId : List Nat)
    (s : ChatState) : ChatState × List (List Nat) × Option Nat :=
  let s0 := { s with retryMessageId := some messageId }
  match regLookup s0.failedMessages messageId with
  | none => (s0, [], none)
  | some messageToRetry =>
    if s0.isConnected = true then
      let s1 := { s0 with messages := s0.messages.map (fun (msg : Msg) =>
        if msg.id = messageId then
          { msg with status := MsgStatus.sending,
                     retryCount := some (msg.retryCount.getD 0 + 1) }
        else msg) }
      let delay := r + 500
      match encodeEnvelope cfg.encryptionKey (envelopeOf messageToRetry) with
      | some w =>
          ({ s1 with failedMessages := regErase s1.failedMessages messageId,
                     retryMessageId := none }, [w], some delay)
      | none =>
          ({ s1 with retryMessageId := none }, [], some delay)
    else (s0, [], none)

/-- The forEach loop of flushFailedMessages over the ids of the
registry values, with one random draw per retry. -/
def flushFailedGo (cfg : Config) : List (List Nat) → List Nat → ChatState →
    ChatState × List (List Nat)
  | [], _, s => (s, [])
  | mid :: mids, rs, s =>
      let p1 := retryFailedMessage cfg (rs.headD 0) mid s
      let p2 := flushFailedGo cfg mids rs.tail p1.1
      (p2.1, p1.2.1 ++ p2.2)

/-- Model of flushFailedMessages in ChatUi.tsx: retry every message in
the failed-message registry. -/
def flushFailedMessages (cfg : Config) (rs : List Nat) (s : ChatState) :
    ChatState × List (List Nat) :=
  flushFailedGo cfg (s.failedMessages.map (fun p => p.2.id)) rs s

/-- Model of the ws.onopen handler: mark connected, reset the retry
counter, flush the outbound queue, then sweep the failed-message
registry. -/
def wsOnOpen (cfg : Config) (rs : List Nat) (s : ChatState) :
    ChatState × List (List Nat) :=
  let s1 := { s with isConnected := true, isConnecting := false,
                     isAutoConnecting := false, connectionRetryCount := 0 }
  let p1 := flushMessageQueue cfg s1
  let p2 := flushFailedMessages cfg rs p1.1
  (p2.1, p1.2 ++ p2.2)

/-- Model of handleSend in ChatUi.tsx: a no-op when the trimmed input
is empty or the connection is down; otherwise create the user message
with a fresh id and the current time, append it to the message list,
clear the input and send it. -/
def handleSend (cfg : Config) (newId now : List Nat) (s : ChatState) :
    ChatState × List (List Nat) :=
  if strTrim s.inputValue = [] ∨ s.isConnected = false then (s, [])
  else
    let userMsg : Msg :=
      ⟨newId, s.inputValue, Role.user, now, MsgStatus.sending, none⟩
    sendMessage cfg userMsg
      { s with messages := s.messages ++ [userMsg], inputValue := [] }

/-- The events that can occur without user interaction once the
component is mounted: a transport error, a transport close with some
code, or a pending reconnect timer elapsing. -/
inductive AutoEvent where
  | errorEv
  | closeEv (code : Nat)
  | timerEv
deriving DecidableEq, Repr

/-- One automatic event step. -/
def autoStep (cfg : Config) (e : AutoEvent) (s : ChatState) : ChatState :=
  match e with
  | AutoEvent.errorEv => wsOnError cfg s
  | AutoEvent.closeEv code => wsOnClose cfg code s
  | AutoEvent.timerEv => timerFire s

/-- Run a sequence of automatic events. -/
def runAuto (cfg : Config) : List AutoEvent → ChatState → ChatState
  | [], s => s
  | e :: es, s => runAuto cfg es (autoStep cfg e s)

/-- The delivery-irrelevant projection of a message: id, role and
timestamp.  The receive path may rewrite content, so content is kept
separate. -/
def msgCore (m : Msg) : List Nat × Role × List Nat :=
  (m.id, m.role, m.timestamp)

/-- The projection of a message to everything except its delivery
metadata: id, content, role and timestamp. -/
def msgCoreC (m : Msg) : List Nat × List Nat × Role × List Nat :=
  (m.id, m.content, m.role, m.timestamp)

/-- Sample configuration: the component defaults with an empty
encryption key. -/
def cfgPlain : Config := ⟨[], 5, 2000, 10000, true⟩

/-- Sample configuration with a non-empty encryption key. -/
def cfgKeyed : Config := ⟨[107], 5, 2000, 10000, true⟩

/-- A failed sample message with ASCII content. -/
def msgA : Msg := ⟨[97], [104, 105], Role.user, [116], MsgStatus.failed, none⟩

/-- A sample message whose content has a code unit above 255. -/
def msgCJK : Msg := ⟨[98], [20320], Role.user, [116], MsgStatus.sending, none⟩

/-- The blank component state. -/
def stBase : ChatState :=
  ⟨[], [], false, false, false, 0, false, false, none, [], [], none, 0⟩

/-- A connected state whose registry and message list hold msgA. -/
def stReg : ChatState :=
  { stBase with isConnected := true, messages := [msgA],
                failedMessages := [([97], msgA)] }

/-- A state whose automatic reconnect attempts are exhausted under the
default configuration. -/
def stExhausted : ChatState :=
  { stBase with connectionRetryCount := 5, isAutoConnecting := true }

theorem charToSextet_sextetToChar : ∀ n, n < 64 →
    charToSextet (sextetToChar n) = some n := by decide

theorem sextetToChar_ne_61 : ∀ n, n < 64 → sextetToChar n ≠ 61 := by decide

theorem atobBytes_btoaBytes : ∀ bs : List Nat,
    (∀ b ∈ bs, b < 256) → atobBytes (btoaBytes bs) = some bs := by
  intro bs
  induction bs using btoaBytes.induct with
  | case1 =>
      intro _
      rfl
  | case2 b1 =>
      intro h
      have hb1 : b1 < 256 := h b1 (by simp)
      have h1 : b1 / 4 < 64 := by omega
      have h2 : b1 % 4 * 16 < 64 := by omega
      simp only [btoaBytes, atobBytes, and_true, sextetToChar_ne_61 _ h1,
        sextetToChar_ne_61 _ h2]
      rw [if_pos (by simp)]
      rw [charToSextet_sextetToChar _ h1, charToSextet_sextetToChar _ h2]
      simp only [Option.bind_eq_bind, Option.some_bind, Option.some.injEq,
        List.cons.injEq, and_true]
      omega
  | case3 b1 b2 =>
      intro h
      have hb1 : b1 < 256 := h b1 (by simp)
      have hb2 : b2 < 256 := h b2 (by simp)
      have h1 : b1 / 4 < 64 := by omega
      have h2 : b1 % 4 * 16 + b2 / 16 < 64 := by omega
      have h3 : b2 % 16 * 4 < 64 := by omega
      simp only [btoaBytes, atobBytes]
      rw [if_neg (by simp [sextetToChar_ne_61 _ h3])]
      rw [if_pos (by simp)]
      rw [charToSextet_sextetToChar _ h1, charToSextet_sextetToChar _ h2,
        charToSextet_sextetToChar _ h3]
      simp only [Option.bind_eq_bind, Option.some_bind, Option.some.injEq,
        List.cons.injEq, and_true]
      refine ⟨by omega, by omega⟩
  | case4 b1 b2 b3 rest ih =>
      intro h
      have hb1 : b1 < 256 := h b1 (by simp)
      have hb2 : b2 < 256 := h b2 (by simp)
      have hb3 : b3 < 256 := h b3 (by simp)
      have h1 : b1 / 4 < 64 := by omega
      have h2 : b1 % 4 * 16 + b2 / 16 < 64 := by omega
      have h3 : b2 % 16 * 4 + b3 / 64 < 64 := by omega
      have h4 : b3 % 64 < 64 := by omega
      have hrest : ∀ b ∈ rest, b < 256 := by
        intro b hb
        exact h b (by simp [hb])
      simp only [btoaBytes, atobBytes]
      rw [if_neg (by simp [sextetToChar_ne_61 _ h3])]
      rw [if_neg (by simp [sextetToChar_ne_61 _ h4])]
      rw [charToSextet_sextetToChar _ h1, charToSextet_sextetToChar _ h2,
        charToSextet_sextetToChar _ h3, charToSextet_sextetToChar _ h4,
        ih hrest]
      simp only [Option.bind_eq_bind, Option.some_bind, Option.some.injEq,
        List.cons.injEq, and_true]
      refine ⟨by omega, by omega, by omega⟩

theorem hexVal_hexDigit : ∀ d, d < 16 → hexVal (hexDigit d) = some d := by
  decide

theorem parseStrBody_quote (r : List Nat) :
    parseStrBody (34 :: r) = some ([], r) := by
  rw [parseStrBody.eq_def]
  simp

theorem parseStrBody_lit (c : Nat) (rest : List Nat)
    (h34 : c ≠ 34) (h92 : c ≠ 92) :
    parseStrBody (c :: rest) =
      (parseStrBody rest).bind fun p => some (c :: p.1, p.2) := by
  rw [parseStrBody.eq_def]
  simp [h34, h92]

theorem parseStrBody_esc (e : Nat) (rest : List Nat) (he : e ≠ 117) :
    parseStrBody (92 :: e :: rest) =
      (unescSimple e).bind fun ec =>
        (parseStrBody rest).bind fun p => some (ec :: p.1, p.2) := by
  rw [parseStrBody.eq_def]
  simp [he]

theorem parseStrBody_unicode (h1 h2 h3 h4 : Nat) (rest : List Nat) :
    parseStrBody (92 :: 117 :: h1 :: h2 :: h3 :: h4 :: rest) =
      (hexVal h1).bind fun d1 =>
        (hexVal h2).bind fun d2 =>
          (hexVal h3).bind fun d3 =>
            (hexVal h4).bind fun d4 =>
              (parseStrBody rest).bind fun p =>
                some ((d1 * 4096 + d2 * 256 + d3 * 16 + d4) :: p.1, p.2) := by
  rw [parseStrBody.eq_def]
  simp

theorem parseStrBody_escAll (s r : List Nat) :
    parseStrBody (escAll s ++ (34 :: r)) = some (s, r) := by
  induction s with
  | nil => simp [escAll, parseStrBody_quote]
  | cons c s ih =>
      by_cases h34 : c = 34
      · subst h34
        simp [escAll, escChar, parseStrBody_esc, unescSimple, ih]
      · by_cases h92 : c = 92
        · subst h92
          simp [escAll, escChar, parseStrBody_esc, unescSimple, ih]
        · by_cases hctl : c < 32
          · by_cases hn : c = 8 ∨ c = 9 ∨ c = 10 ∨ c = 12 ∨ c = 13
            · have he2 : ∃ e, escChar c = [92, e] ∧ e ≠ 117 ∧
                  unescSimple e = some c := by
                rcases hn with h | h | h | h | h <;> subst h <;>
                  exact ⟨_, rfl, by omega, rfl⟩
              rcases he2 with ⟨e, hee, he117, hse⟩
              simp only [escAll, hee, List.cons_append, List.append_assoc,
                List.nil_append]
              rw [parseStrBody_esc e _ he117, hse]
              simp [ih]
            · have he : escChar c =
                  [92, 117, 48, 48, hexDigit (c / 16), hexDigit (c % 16)] := by
                unfold escChar
                rw [if_neg h34, if_neg h92, if_neg (by omega), if_neg (by omega),
                  if_neg (by omega), if_neg (by omega), if_neg (by omega),
                  if_pos hctl]
              have hv1 : hexVal (hexDigit (c / 16)) = some (c / 16) :=
                hexVal_hexDigit _ (by omega)
              have hv2 : hexVal (hexDigit (c % 16)) = some (c % 16) :=
                hexVal_hexDigit _ (by omega)
              simp only [escAll, he, List.cons_append, List.append_assoc,
                List.nil_append, parseStrBody_unicode]
              rw [hv1, hv2, ih, show hexVal 48 = some 0 from rfl]
              simp only [Option.some_bind, Option.some.injEq, Prod.mk.injEq,
                List.cons.injEq, and_true]
              omega
          · have he : escChar c = [c] := by
              unfold escChar
              rw [if_neg h34, if_neg h92, if_neg (by omega), if_neg (by omega),
                if_neg (by omega), if_neg (by omega), if_neg (by omega),
                if_neg hctl]
            simp [escAll, he, parseStrBody_lit c _ h34 h92, ih]

theorem dropLit_append (l r : List Nat) : dropLit l (l ++ r) = some r := by
  induction l with
  | nil => rfl
  | cons c l ih => simp [dropLit, ih]

theorem parseEnvelope_serializeEnvelope (e : Envelope) :
    parseEnvelope (serializeEnvelope e) = some e := by
  rw [parseEnvelope, serializeEnvelope]
  simp only [jsonQuote, List.cons_append, List.append_assoc, List.nil_append,
    List.singleton_append]
  simp [dropLit, parseStrBody_escAll]

/-- Each code unit a single escape produces stays below 256 when the
escaped unit is below 256. -/
theorem escChar_latin1 (a : Nat) (ha : a < 256) :
    ∀ c ∈ escChar a, c < 256 := by
  intro c hcm
  rcases Nat.lt_or_ge a 32 with hlt | hge
  · interval_cases a <;> simp_all [escChar, hexDigit] <;> omega
  · by_cases h1 : a = 34
    · simp [escChar, h1] at hcm
      omega
    · by_cases h2 : a = 92
      · simp [escChar, h1, h2] at hcm
        omega
      · have he : escChar a = [a] := by
          unfold escChar
          rw [if_neg h1, if_neg h2, if_neg (by omega), if_neg (by omega),
            if_neg (by omega), if_neg (by omega), if_neg (by omega),
            if_neg (by omega)]
        rw [he] at hcm
        simp at hcm
        omega

theorem escAll_latin1 (s : List Nat) (hs : ∀ x ∈ s, x < 256) :
    ∀ x ∈ escAll s, x < 256 := by
  induction s with
  | nil =>
      intro x hx
      simp [escAll] at hx
  | cons a t ih =>
      intro x hx
      simp only [escAll, List.mem_append] at hx
      rcases hx with hx | hx
      · exact escChar_latin1 a (hs a (by simp)) x hx
      · exact ih (fun b hb => hs b (by simp [hb])) x hx

theorem jsonQuote_latin1 (s : List Nat) (hs : ∀ x ∈ s, x < 256) :
    ∀ x ∈ jsonQuote s, x < 256 := by
  intro x hx
  simp only [jsonQuote, List.mem_cons, List.mem_append, List.mem_singleton] at hx
  rcases hx with (hx | hx) | hx | hx <;>
    first
      | omega
      | exact escAll_latin1 s hs x hx
      | simp at hx

/-- Every code unit of the serialized envelope stays below 256 when
the fields consist of code units below 256: the escape sequences are
ASCII and the remaining units pass through unchanged. -/
theorem serializeEnvelope_latin1 (e : Envelope)
    (hid : ∀ c ∈ e.id, c < 256) (hc : ∀ c ∈ e.content, c < 256)
    (ht : ∀ c ∈ e.timestamp, c < 256) :
    ∀ c ∈ serializeEnvelope e, c < 256 := by
  intro c hc2
  unfold serializeEnvelope at hc2
  simp only [List.mem_append] at hc2
  rcases hc2 with ((((((h | h) | h) | h) | h) | h) | h)
  · simp at h
    omega
  · exact jsonQuote_latin1 _ hid _ h
  · simp at h
    omega
  · exact jsonQuote_latin1 _ hc _ h
  · simp at h
    omega
  · exact jsonQuote_latin1 _ ht _ h
  · simp at h
    omega

theorem map_core_of_update (ms : List Msg) (f : Msg → Msg)
    (hf : ∀ m, msgCore (f m) = msgCore m) :
    (ms.map f).map msgCore = ms.map msgCore := by
  induction ms with
  | nil => rfl
  | cons m ms ih => simp [ih, hf m]

theorem map_coreC_of_update (ms : List Msg) (f : Msg → Msg)
    (hf : ∀ m, msgCoreC (f m) = msgCoreC m) :
    (ms.map f).map msgCoreC = ms.map msgCoreC := by
  induction ms with
  | nil => rfl
  | cons m ms ih => simp [ih, hf m]

/-- sendMessage changes only the status field of existing messages (or
the queue); id, content, role and timestamp survive. -/
theorem sendMessage_coreC (cfg : Config) (m : Msg) (s : ChatState) :
    (sendMessage cfg m s).1.messages.map msgCoreC = s.messages.map msgCoreC := by
  unfold sendMessage
  by_cases hc : s.isConnected = false
  · rw [if_pos hc]
  · rw [if_neg hc]
    cases encodeEnvelope cfg.encryptionKey (envelopeOf m) <;>
      · simp only []
        exact map_coreC_of_update _ _ (by
          intro x
          by_cases hx : x.id = m.id <;> simp [msgCoreC, hx])

theorem sendMessage_connected (cfg : Config) (m : Msg) (s : ChatState)
    (h : s.isConnected = true) :
    (sendMessage cfg m s).1.isConnected = true ∧
    (sendMessage cfg m s).1.messageQueue = s.messageQueue ∧
    (sendMessage cfg m s).1.failedMessages = s.failedMessages ∧
    (sendMessage cfg m s).2 =
      (encodeEnvelope cfg.encryptionKey (envelopeOf m)).toList := by
  unfold sendMessage
  rw [if_neg (by simp [h])]
  cases encodeEnvelope cfg.encryptionKey (envelopeOf m) <;> simp [h]

theorem sendEach_connected (cfg : Config) (ms : List Msg) (s : ChatState)
    (h : s.isConnected = true) :
    (sendEach cfg ms s).1.isConnected = true ∧
    (sendEach cfg ms s).1.messageQueue = s.messageQueue ∧
    (sendEach cfg ms s).1.failedMessages = s.failedMessages ∧
    (sendEach cfg ms s).2 =
      ms.filterMap (fun m => encodeEnvelope cfg.encryptionKey (envelopeOf m)) := by
  induction ms generalizing s with
  | nil => simpa [sendEach] using h
  | cons m ms ih =>
      have h1 := sendMessage_connected cfg m s h
      have h2 := ih (sendMessage cfg m s).1 h1.1
      unfold sendEach
      dsimp only
      refine ⟨h2.1, ?_, ?_, ?_⟩
      · rw [h2.2.1, h1.2.1]
      · rw [h2.2.2.1, h1.2.2.1]
      · rw [h2.2.2.2, h1.2.2.2, List.filterMap_cons]
        cases encodeEnvelope cfg.encryptionKey (envelopeOf m) <;> simp

theorem sendEach_coreC (cfg : Config) (ms : List Msg) (s : ChatState) :
    (sendEach cfg ms s).1.messages.map msgCoreC = s.messages.map msgCoreC := by
  induction ms generalizing s with
  | nil => rfl
  | cons m ms ih =>
      unfold sendEach
      rw [ih, sendMessage_coreC]

theorem flushMessageQueue_connected (cfg : Config) (s : ChatState)
    (h : s.isConnected = true) :
    (flushMessageQueue cfg s).1.messageQueue = [] ∧
    (flushMessageQueue cfg s).1.isConnected = true ∧
    (flushMessageQueue cfg s).1.failedMessages = s.failedMessages ∧
    (flushMessageQueue cfg s).2 =
      s.messageQueue.filterMap
        (fun m => encodeEnvelope cfg.encryptionKey (envelopeOf m)) := by
  unfold flushMessageQueue
  by_cases hq : s.messageQueue = []
  · rw [if_neg (by simp [hq])]
    simp [hq, h]
  · have hse := sendEach_connected cfg s.messageQueue s h
    rw [if_pos ⟨hq, h⟩]
    exact ⟨rfl, hse.1, hse.2.2.1, hse.2.2.2⟩

theorem flushMessageQueue_coreC (cfg : Config) (s : ChatState) :
    (flushMessageQueue cfg s).1.messages.map msgCoreC =
      s.messages.map msgCoreC := by
  unfold flushMessageQueue
  split
  · exact sendEach_coreC cfg s.messageQueue s
  · rfl

theorem regLookup_regErase (reg : List (List Nat × Msg)) (mid : List Nat) :
    regLookup (regErase reg mid) mid = none := by
  induction reg with
  | nil => rfl
  | cons p rest ih =>
      by_cases hp : p.1 = mid
      · simpa [regErase, hp] using ih
      · rcases p with ⟨k, v⟩
        simp only [regErase, List.filter_cons] at ih ⊢
        simp only [ne_eq] at hp ⊢
        rw [if_pos (by simpa using hp)]
        simpa [regLookup, hp] using ih

theorem retryFailedMessage_coreC (cfg : Config) (r : Nat) (mid : List Nat)
    (s : ChatState) :
    (retryFailedMessage cfg r mid s).1.messages.map msgCoreC =
      s.messages.map msgCoreC := by
  unfold retryFailedMessage
  dsimp only
  split
  · rfl
  · split
    · split <;>
        · dsimp only
          exact map_coreC_of_update _ _ (by
            intro x
            by_cases hx : x.id = mid <;> simp [msgCoreC, hx])
    · rfl

theorem retryFailedMessage_queue (cfg : Config) (r : Nat) (mid : List Nat)
    (s : ChatState) :
    (retryFailedMessage cfg r mid s).1.messageQueue = s.messageQueue ∧
    (retryFailedMessage cfg r mid s).1.isConnected = s.isConnected := by
  unfold retryFailedMessage
  dsimp only
  split
  · exact ⟨rfl, rfl⟩
  · split
    · split <;> exact ⟨rfl, rfl⟩
    · exact ⟨rfl, rfl⟩

theorem flushFailedGo_coreC (cfg : Config) (mids : List (List Nat))
    (rs : List Nat) (s : ChatState) :
    (flushFailedGo cfg mids rs s).1.messages.map msgCoreC =
      s.messages.map msgCoreC := by
  induction mids generalizing rs s with
  | nil => rfl
  | cons mid mids ih =>
      unfold flushFailedGo
      dsimp only
      rw [ih, retryFailedMessage_coreC]

theorem flushFailedGo_queue (cfg : Config) (mids : List (List Nat))
    (rs : List Nat) (s : ChatState) :
    (flushFailedGo cfg mids rs s).1.messageQueue = s.messageQueue := by
  induction mids generalizing rs s with
  | nil => rfl
  | cons mid mids ih =>
      unfold flushFailedGo
      dsimp only
      rw [ih, (retryFailedMessage_queue cfg _ mid s).1]

theorem wsOnOpen_coreC (cfg : Config) (rs : List Nat) (s : ChatState) :
    (wsOnOpen cfg rs s).1.messages.map msgCoreC = s.messages.map msgCoreC := by
  unfold wsOnOpen flushFailedMessages
  dsimp only
  rw [flushFailedGo_coreC, flushMessageQueue_coreC]

theorem wsOnOpen_spec (cfg : Config) (rs : List Nat) (s : ChatState) :
    (wsOnOpen cfg rs s).1.messageQueue = [] ∧
    ∃ retryOut,
      (wsOnOpen cfg rs s).2 =
        s.messageQueue.filterMap
          (fun m => encodeEnvelope cfg.encryptionKey (envelopeOf m)) ++
          retryOut := by
  unfold wsOnOpen flushFailedMessages
  dsimp only
  have hfm := flushMessageQueue_connected cfg
      { s with isConnected := true, isConnecting := false,
               isAutoConnecting := false, connectionRetryCount := 0 } rfl
  constructor
  · rw [flushFailedGo_queue, hfm.1]
  · exact ⟨_, by rw [hfm.2.2.2]⟩

theorem wsOnClose_messages (cfg : Config) (c : Nat) (s : ChatState) :
    (wsOnClose cfg c s).messages = s.messages := by
  unfold wsOnClose handleConnectionRetry
  dsimp only
  split
  · split <;> rfl
  · rfl

theorem handleConnectionRetry_messages (cfg : Config) (s : ChatState) :
    (handleConnectionRetry cfg s).messages = s.messages := by
  unfold handleConnectionRetry
  split <;> rfl

theorem wsOnMessage_core (cfg : Config) (w : List Nat) (s : ChatState) :
    (wsOnMessage cfg w s).messages.map msgCore = s.messages.map msgCore := by
  unfold wsOnMessage
  split
  · rfl
  · exact map_core_of_update _ _ (by
      intro x
      rename_i env _
      by_cases hx : x.id = env.id <;> simp [msgCore, hx])

/-- C1, counterexample.  The round-trip law fails as stated: with the
non-empty key k and an envelope whose content holds the code unit
20320 (a CJK character), encryptMessage throws inside btoa, so the
encode-then-decode pipeline yields none instead of reproducing the
message. -/
theorem c1_roundtrip_counterexample :
    ¬ ((encodeEnvelope [107] ⟨[97], [20320], [99]⟩).bind
        (decodeEnvelope [107]) = some ⟨[97], [20320], [99]⟩) := by
  decide

/-- C1, amended.  For every key (empty or not) and every envelope
whose id, content and timestamp consist of code units below 256,
decoding the encoding reproduces id, content and timestamp exactly.
The Latin-1 restriction is forced by btoa: with a non-empty key,
content with any code unit of 256 or more makes encryptMessage throw
and no wire frame is produced. -/
theorem c1_roundtrip_latin1 (key : List Nat) (e : Envelope)
    (hid : ∀ c ∈ e.id, c < 256) (hc : ∀ c ∈ e.content, c < 256)
    (ht : ∀ c ∈ e.timestamp, c < 256) :
    (encodeEnvelope key e).bind (decodeEnvelope key) = some e := by
  unfold encodeEnvelope encryptMessage
  by_cases hk : key = []
  · rw [if_pos hk]
    simp only [Option.some_bind]
    unfold decodeEnvelope decryptMessage
    rw [if_pos hk]
    simp [parseEnvelope_serializeEnvelope]
  · have h256 := serializeEnvelope_latin1 e hid hc ht
    have hall : ((serializeEnvelope e).all fun c => decide (c < 256)) = true := by
      rw [List.all_eq_true]
      intro c hc2
      exact decide_eq_true (h256 c hc2)
    rw [if_neg hk, if_pos hall]
    simp only [Option.some_bind]
    unfold decodeEnvelope decryptMessage
    rw [if_neg hk, atobBytes_btoaBytes _ h256]
    simp [parseEnvelope_serializeEnvelope]

/-- C1, witness: a concrete envelope of Latin-1 text round-trips under
a concrete non-empty key. -/
theorem c1_roundtrip_latin1_witness :
    (encodeEnvelope [107] ⟨[104], [104, 105], [116]⟩).bind
      (decodeEnvelope [107]) = some ⟨[104], [104, 105], [116]⟩ :=
  c1_roundtrip_latin1 [107] ⟨[104], [104, 105], [116]⟩
    (by decide) (by decide) (by decide)

/-- C10.  The value of a non-empty encryption key never influences the
wire bytes: encryptMessage and decryptMessage test the key only for
emptiness, so any two non-empty keys give identical results on every
input. -/
theorem c10_key_value_irrelevant (k1 k2 p : List Nat)
    (h1 : k1 ≠ []) (h2 : k2 ≠ []) :
    encryptMessage k1 p = encryptMessage k2 p ∧
    decryptMessage k1 p = decryptMessage k2 p := by
  unfold encryptMessage decryptMessage
  rw [if_neg h1, if_neg h2, if_neg h1, if_neg h2]
  exact ⟨rfl, rfl⟩

/-- C10, witness: two concrete distinct non-empty keys act identically
on a concrete plaintext. -/
theorem c10_key_value_irrelevant_witness :
    encryptMessage [97] [104, 105] = encryptMessage [98, 99] [104, 105] ∧
    decryptMessage [97] [104, 105] = decryptMessage [98, 99] [104, 105] :=
  c10_key_value_irrelevant [97] [98, 99] [104, 105] (by decide) (by decide)

/-- C4.  In exponential mode the reconnect delay for attempt n equals
min of retryDelay times 2 to the n and maxRetryDelay, and it is
monotonically non-decreasing in n; in linear mode it is constantly
retryDelay; handleConnectionRetry schedules exactly this delay for
attempt count plus one when attempts remain. -/
theorem c4_backoff_delay (cfg : Config) (s : ChatState) (n m : Nat)
    (hnm : n ≤ m) :
    (cfg.enableExponentialBackoff = true →
      backoffDelay cfg n = min (cfg.retryDelay * 2 ^ n) cfg.maxRetryDelay) ∧
    (cfg.enableExponentialBackoff = false →
      backoffDelay cfg n = cfg.retryDelay) ∧
    backoffDelay cfg n ≤ backoffDelay cfg m ∧
    (s.connectionRetryCount < cfg.maxRetries →
      (handleConnectionRetry cfg s).pendingRetry =
        some (backoffDelay cfg (s.connectionRetryCount + 1))) := by
  refine ⟨?_, ?_, ?_, ?_⟩
  · intro h
    simp [backoffDelay, h]
  · intro h
    simp [backoffDelay, h]
  · unfold backoffDelay
    split
    · exact min_le_min
        (Nat.mul_le_mul_left _ (Nat.pow_le_pow_right (by omega) hnm))
        (le_refl _)
    · exact le_refl _
  · intro hlt
    unfold handleConnectionRetry
    rw [if_neg (by omega)]

/-- C4, witness: the exponential formula, monotonicity and the
scheduled delay at the default configuration, attempts 1 and 2. -/
theorem c4_backoff_delay_witness :
    backoffDelay cfgPlain 1 =
      min (cfgPlain.retryDelay * 2 ^ 1) cfgPlain.maxRetryDelay ∧
    backoffDelay cfgPlain 1 ≤ backoffDelay cfgPlain 2 ∧
    (handleConnectionRetry cfgPlain stBase).pendingRetry =
      some (backoffDelay cfgPlain (stBase.connectionRetryCount + 1)) := by
  have h := c4_backoff_delay cfgPlain stBase 1 2 (by decide)
  exact ⟨h.1 rfl, h.2.2.1, h.2.2.2 (by decide)⟩

/-- C6.  A close with the normal code 1000 never enters the reconnect
path: no timer is scheduled, the retry counter stays put and no
connection attempt starts.  A close with any other code while attempts
remain runs handleConnectionRetry, which schedules the backoff
timer. -/
theorem c6_close_code_dispatch (cfg : Config) (s : ChatState) (c : Nat) :
    ((wsOnClose cfg 1000 s).pendingRetry = s.pendingRetry ∧
     (wsOnClose cfg 1000 s).connectionRetryCount = s.connectionRetryCount ∧
     (wsOnClose cfg 1000 s).attemptsStarted = s.attemptsStarted) ∧
    (c ≠ 1000 → s.connectionRetryCount < cfg.maxRetries →
      wsOnClose cfg c s =
        handleConnectionRetry cfg
          { s with isConnected := false, isConnecting := false } ∧
      (wsOnClose cfg c s).pendingRetry =
        some (backoffDelay cfg (s.connectionRetryCount + 1))) := by
  constructor
  · unfold wsOnClose
    rw [if_neg (by simp)]
    exact ⟨rfl, rfl, rfl⟩
  · intro hc hlt
    constructor
    · unfold wsOnClose
      rw [if_pos ⟨hc, hlt⟩]
    · unfold wsOnClose handleConnectionRetry
      rw [if_pos ⟨hc, hlt⟩, if_neg (by dsimp only; omega)]

/-- C6, witness: concrete dispatch at codes 1000 and 1006 from the
blank state under the default configuration. -/
theorem c6_close_code_dispatch_witness :
    (wsOnClose cfgPlain 1000 stBase).pendingRetry = stBase.pendingRetry ∧
    wsOnClose cfgPlain 1006 stBase =
      handleConnectionRetry cfgPlain
        { stBase with isConnected := false, isConnecting := false } ∧
    (wsOnClose cfgPlain 1006 stBase).pendingRetry =
      some (backoffDelay cfgPlain (stBase.connectionRetryCount + 1)) := by
  have h := c6_close_code_dispatch cfgPlain stBase 1006
  exact ⟨h.1.1, (h.2 (by decide) (by decide)).1, (h.2 (by decide) (by decide)).2⟩

/-- C2, counterexample.  With the connection down and non-empty input,
handleSend returns without queueing anything: the submission is
dropped, not appended to the outbound queue. -/
theorem c2_submit_counterexample :
    handleSend cfgPlain [122] [119] { stBase with inputValue := [104, 105] } =
      ({ stBase with inputValue := [104, 105] }, []) ∧
    ({ stBase with inputValue := [104, 105] } : ChatState).messageQueue = [] := by
  decide

/-- C2, amended.  handleSend is a no-op whenever the connection is
down (the submission is rejected rather than queued); the queueing
branch lives in sendMessage, which, when invoked disconnected, appends
the message to the queue with its status field untouched (there is no
pending state; a queued user message keeps the status sending it was
created with).  When connected and the trimmed input is non-empty,
handleSend appends a fresh message carrying the submitted content and
the fresh id. -/
theorem c2_submit_behaviour (cfg : Config) (newId now : List Nat) (m : Msg)
    (s : ChatState) :
    (s.isConnected = false → handleSend cfg newId now s = (s, [])) ∧
    (s.isConnected = false →
      sendMessage cfg m s =
        ({ s with messageQueue := s.messageQueue ++ [m] }, [])) ∧
    (s.isConnected = true → strTrim s.inputValue ≠ [] →
      (handleSend cfg newId now s).1.messages.map msgCoreC =
        s.messages.map msgCoreC ++ [(newId, s.inputValue, Role.user, now)]) := by
  refine ⟨?_, ?_, ?_⟩
  · intro hc
    unfold handleSend
    rw [if_pos (Or.inr hc)]
  · intro hc
    unfold sendMessage
    rw [if_pos hc]
  · intro hc hne
    unfold handleSend
    rw [if_neg (by simp [hne, hc])]
    dsimp only
    rw [sendMessage_coreC]
    simp [msgCoreC]

/-- C2, witness: the three behaviours at concrete states. -/
theorem c2_submit_behaviour_witness :
    handleSend cfgPlain [122] [119] { stBase with inputValue := [104, 105] } =
      ({ stBase with inputValue := [104, 105] }, []) ∧
    sendMessage cfgPlain msgA { stBase with inputValue := [104, 105] } =
      ({ { stBase with inputValue := [104, 105] } with
          messageQueue :=
            ({ stBase with inputValue := [104, 105] } : ChatState).messageQueue
              ++ [msgA] }, []) ∧
    (handleSend cfgPlain [122] [119]
        { stBase with inputValue := [104, 105],
                      isConnected := true }).1.messages.map msgCoreC =
      [([122], [104, 105], Role.user, [119])] := by
  have h1 := c2_submit_behaviour cfgPlain [122] [119] msgA
    { stBase with inputValue := [104, 105] }
  have h2 := c2_submit_behaviour cfgPlain [122] [119] msgA
    { stBase with inputValue := [104, 105], isConnected := true }
  refine ⟨h1.1 rfl, h1.2.1 rfl, ?_⟩
  have h3 := h2.2.2 rfl (by decide)
  simpa using h3

/-- C3, counterexample.  Not every queued message is handed to the
transport on reconnect: with a non-empty key and a queued message
whose content has a code unit above 255, the flush on open emits no
frame at all (the message is marked failed and dropped from the
queue), although the queue was non-empty. -/
theorem c3_fifo_counterexample :
    (wsOnOpen cfgKeyed [] { stBase with messageQueue := [msgCJK] }).2 = [] ∧
    ({ stBase with messageQueue := [msgCJK] } : ChatState).messageQueue ≠ [] := by
  decide

/-- C3, amended.  On the transition into Connected, the queue is
drained and emptied, and the frames handed to the transport for queued
messages appear in exactly FIFO enqueue order; however only messages
whose envelope encodes successfully are handed over (a message whose
encoding throws is marked failed and skipped), and the retry sweep of
the failed-message registry may append further frames afterwards. -/
theorem c3_fifo_flush (cfg : Config) (rs : List Nat) (s : ChatState) :
    (wsOnOpen cfg rs s).1.messageQueue = [] ∧
    ∃ retryOut,
      (wsOnOpen cfg rs s).2 =
        s.messageQueue.filterMap
          (fun m => encodeEnvelope cfg.encryptionKey (envelopeOf m)) ++
          retryOut :=
  wsOnOpen_spec cfg rs s

theorem autoStep_frozen (cfg : Config) (e : AutoEvent) (s : ChatState)
    (hmax : cfg.maxRetries ≤ s.connectionRetryCount)
    (hauto : s.isAutoConnecting = true) :
    (autoStep cfg e s).attemptsStarted = s.attemptsStarted ∧
    cfg.maxRetries ≤ (autoStep cfg e s).connectionRetryCount ∧
    (autoStep cfg e s).isAutoConnecting = true ∧
    ((autoStep cfg e s).pendingRetry = s.pendingRetry ∨
     (autoStep cfg e s).pendingRetry = none) := by
  cases e with
  | errorEv =>
      rw [show autoStep cfg AutoEvent.errorEv s = wsOnError cfg s from rfl]
      unfold wsOnError handleConnectionRetry
      dsimp only
      rw [if_pos hmax]
      exact ⟨rfl, hmax, hauto, Or.inl rfl⟩
  | closeEv code =>
      rw [show autoStep cfg (AutoEvent.closeEv code) s = wsOnClose cfg code s
        from rfl]
      unfold wsOnClose
      dsimp only
      rw [if_neg (by omega)]
      exact ⟨rfl, hmax, hauto, Or.inl rfl⟩
  | timerEv =>
      rw [show autoStep cfg AutoEvent.timerEv s = timerFire s from rfl]
      unfold timerFire
      split
      · exact ⟨rfl, hmax, hauto, Or.inl rfl⟩
      · unfold connectWebSocket
        rw [if_pos (by simp [hauto])]
        exact ⟨rfl, hmax, hauto, Or.inr rfl⟩

theorem runAuto_frozen (cfg : Config) (evs : List AutoEvent) (s : ChatState)
    (hmax : cfg.maxRetries ≤ s.connectionRetryCount)
    (hauto : s.isAutoConnecting = true) :
    (runAuto cfg evs s).attemptsStarted = s.attemptsStarted ∧
    cfg.maxRetries ≤ (runAuto cfg evs s).connectionRetryCount ∧
    (runAuto cfg evs s).isAutoConnecting = true ∧
    ((runAuto cfg evs s).pendingRetry = s.pendingRetry ∨
     (runAuto cfg evs s).pendingRetry = none) := by
  induction evs generalizing s with
  | nil => exact ⟨rfl, hmax, hauto, Or.inl rfl⟩
  | cons e es ih =>
      have h1 := autoStep_frozen cfg e s hmax hauto
      have h2 := ih (autoStep cfg e s) h1.2.1 h1.2.2.1
      refine ⟨h2.1.trans h1.1, h2.2.1, h2.2.2.1, ?_⟩
      rcases h2.2.2.2 with hp | hp
      · rcases h1.2.2.2 with hq | hq
        · exact Or.inl (hp.trans hq)
        · exact Or.inr (hp.trans hq)
      · exact Or.inr hp

/-- C5.  An abnormal close below the attempt cap increments the
counter and latches auto-connect mode; once the counter has reached
maxRetries (in auto-connect mode, as every increment leaves it), the
next close shows the terminal failure display, and no sequence of
automatic events (errors, closes, timer expiries) ever starts another
connection attempt: the attempt counter of started connections stays
put and no new reconnect timer appears. -/
theorem c5_failed_is_terminal (cfg : Config) (s t : ChatState) (c : Nat)
    (evs : List AutoEvent)
    (hmax : cfg.maxRetries ≤ s.connectionRetryCount)
    (hauto : s.isAutoConnecting = true)
    (ht : t.connectionRetryCount < cfg.maxRetries) (hc : c ≠ 1000) :
    ((wsOnClose cfg c t).connectionRetryCount = t.connectionRetryCount + 1 ∧
     (wsOnClose cfg c t).isAutoConnecting = true) ∧
    ((wsOnClose cfg c s).showErrorMessage = true ∧
     (wsOnClose cfg c s).isConnected = false) ∧
    (runAuto cfg evs s).attemptsStarted = s.attemptsStarted ∧
    ((runAuto cfg evs s).pendingRetry = s.pendingRetry ∨
     (runAuto cfg evs s).pendingRetry = none) := by
  have hr := runAuto_frozen cfg evs s hmax hauto
  refine ⟨?_, ?_, hr.1, hr.2.2.2⟩
  · unfold wsOnClose handleConnectionRetry
    rw [if_pos ⟨hc, ht⟩, if_neg (by dsimp only; omega)]
    exact ⟨rfl, rfl⟩
  · unfold wsOnClose
    rw [if_neg (by
      intro hcon
      have h2 := hcon.2
      dsimp only at h2
      omega)]
    exact ⟨rfl, rfl⟩

/-- C5, witness: a concrete exhausted state stays frozen under a
concrete burst of automatic events, and a concrete below-cap state
increments on an abnormal close. -/
theorem c5_failed_is_terminal_witness :
    ((wsOnClose cfgPlain 1006 stBase).connectionRetryCount =
        stBase.connectionRetryCount + 1 ∧
     (wsOnClose cfgPlain 1006 stBase).isAutoConnecting = true) ∧
    ((wsOnClose cfgPlain 1006 stExhausted).showErrorMessage = true ∧
     (wsOnClose cfgPlain 1006 stExhausted).isConnected = false) ∧
    (runAuto cfgPlain [AutoEvent.errorEv, AutoEvent.closeEv 1006,
        AutoEvent.timerEv] stExhausted).attemptsStarted =
      stExhausted.attemptsStarted ∧
    ((runAuto cfgPlain [AutoEvent.errorEv, AutoEvent.closeEv 1006,
        AutoEvent.timerEv] stExhausted).pendingRetry =
          stExhausted.pendingRetry ∨
     (runAuto cfgPlain [AutoEvent.errorEv, AutoEvent.closeEv 1006,
        AutoEvent.timerEv] stExhausted).pendingRetry = none) :=
  c5_failed_is_terminal cfgPlain stExhausted stBase 1006
    [AutoEvent.errorEv, AutoEvent.closeEv 1006, AutoEvent.timerEv]
    (by decide) (by decide) (by decide) (by decide)

/-- C7, counterexample.  The receive path does modify message content:
a frame whose envelope matches the id of an existing message replaces
that message content with the frame content. -/
theorem c7_content_overwritten :
    (wsOnMessage cfgPlain (serializeEnvelope ⟨[97], [98], [116]⟩)
        stReg).messages =
      [{ msgA with content := [98], status := MsgStatus.sent }] ∧
    msgA.content ≠ [98] := by
  decide

/-- C7, amended.  The send, retry, reconnect and close paths change
only delivery metadata (status and retryCount): id, content, role and
timestamp of every message survive them.  The receive path preserves
id, role and timestamp but overwrites the content of the matching
message with the decoded frame content. -/
theorem c7_metadata_updates (cfg : Config) (r : Nat) (rs w mid : List Nat)
    (c : Nat) (m : Msg) (s : ChatState) :
    (sendMessage cfg m s).1.messages.map msgCoreC = s.messages.map msgCoreC ∧
    (retryFailedMessage cfg r mid s).1.messages.map msgCoreC =
      s.messages.map msgCoreC ∧
    (wsOnOpen cfg rs s).1.messages.map msgCoreC = s.messages.map msgCoreC ∧
    (wsOnClose cfg c s).messages = s.messages ∧
    (handleConnectionRetry cfg s).messages = s.messages ∧
    (wsOnMessage cfg w s).messages.map msgCore = s.messages.map msgCore :=
  ⟨sendMessage_coreC cfg m s, retryFailedMessage_coreC cfg r mid s,
   wsOnOpen_coreC cfg rs s, wsOnClose_messages cfg c s,
   handleConnectionRetry_messages cfg s, wsOnMessage_core cfg w s⟩

/-- C8.  A registered failed message whose retry succeeds (it is
present, the connection is up, and the envelope encodes) has its
retryCount incremented by exactly one, its status set to sending, and
is absent from the failed-message registry afterwards; exactly its
frame is handed to the transport. -/
theorem c8_retry_success (cfg : Config) (r : Nat) (mid w : List Nat)
    (s : ChatState) (m : Msg)
    (hm : regLookup s.failedMessages mid = some m)
    (hconn : s.isConnected = true)
    (hw : encodeEnvelope cfg.encryptionKey (envelopeOf m) = some w) :
    regLookup (retryFailedMessage cfg r mid s).1.failedMessages mid = none ∧
    (retryFailedMessage cfg r mid s).1.failedMessages =
      regErase s.failedMessages mid ∧
    (retryFailedMessage cfg r mid s).2.1 = [w] ∧
    (retryFailedMessage cfg r mid s).1.messages =
      s.messages.map (fun msg =>
        if msg.id = mid then
          { msg with status := MsgStatus.sending,
                     retryCount := some (msg.retryCount.getD 0 + 1) }
        else msg) := by
  unfold retryFailedMessage
  dsimp only
  rw [hm]
  dsimp only
  rw [if_pos hconn, hw]
  exact ⟨regLookup_regErase _ _, rfl, rfl, rfl⟩

/-- C8, witness: a concrete successful retry of the registered message
msgA. -/
theorem c8_retry_success_witness :
    regLookup (retryFailedMessage cfgPlain 0 [97] stReg).1.failedMessages
        [97] = none ∧
    (retryFailedMessage cfgPlain 0 [97] stReg).1.failedMessages =
      regErase stReg.failedMessages [97] ∧
    (retryFailedMessage cfgPlain 0 [97] stReg).2.1 =
      [serializeEnvelope (envelopeOf msgA)] ∧
    (retryFailedMessage cfgPlain 0 [97] stReg).1.messages =
      stReg.messages.map (fun msg =>
        if msg.id = [97] then
          { msg with status := MsgStatus.sending,
                     retryCount := some (msg.retryCount.getD 0 + 1) }
        else msg) :=
  c8_retry_success cfgPlain 0 [97] (serializeEnvelope (envelopeOf msgA))
    stReg msgA (by decide) (by decide) (by decide)

/-- C9, counterexample.  A manual retry is not free of delay: the
confirm dialog invokes retryFailedMessage directly, and even with the
smallest random draw the scheduled delay is 500 milliseconds, not
zero. -/
theorem c9_manual_retry_delayed :
    (retryFailedMessage cfgPlain 0 [97] stReg).2.2 = some 500 ∧
    (500 : Nat) ≠ 0 := by
  decide

/-- C9, amended.  Every retry of a registered failed message while
connected, whether triggered manually from the confirm dialog or
automatically by the registry sweep, is preceded by the same jittered
delay of the random draw plus 500, which lies in the interval from 500
inclusive to 1500 exclusive; manual retries are not exempt. -/
theorem c9_retry_jitter (cfg : Config) (r : Nat) (mid : List Nat)
    (s : ChatState) (m : Msg)
    (hm : regLookup s.failedMessages mid = some m)
    (hconn : s.isConnected = true) (hr : r < 1000) :
    (retryFailedMessage cfg r mid s).2.2 = some (r + 500) ∧
    500 ≤ r + 500 ∧ r + 500 < 1500 := by
  refine ⟨?_, by omega, by omega⟩
  unfold retryFailedMessage
  dsimp only
  rw [hm]
  dsimp only
  rw [if_pos hconn]
  cases encodeEnvelope cfg.encryptionKey (envelopeOf m) <;> rfl

/-- C9, witness: a concrete retry with random draw 250 schedules a
750 millisecond delay. -/
theorem c9_retry_jitter_witness :
    (retryFailedMessage cfgPlain 250 [97] stReg).2.2 = some (250 + 500) ∧
    500 ≤ 250 + 500 ∧ 250 + 500 < 1500 :=
  c9_retry_jitter cfgPlain 250 [97] stReg msgA (by decide) (by decide)
    (by decide)

end ChatUi
